import Mathlib

/-!
Shallow embedding of `src/ome_zarr.py` (the ome-zarr-py napari reader
plugin) and proofs about the claims of its specification.

The module under verification reads JSON metadata documents from a local
or remote zarr store (`LocalZarr.get_json` / `RemoteZarr.get_json`),
decides whether a path is a zarr store (`BaseZarr.is_zarr`,
`napari_get_reader`), resolves the multiscale pyramid
(`BaseZarr.load_omero_zarr`) and translates OMERO channel metadata into
napari display metadata (`BaseZarr.load_omero_metadata`).

Modelling conventions:
* JSON values are the inductive `Json` below; JSON numbers are modelled
  as integers (no claim depends on non-integer numerics of the
  documents themselves).
* Python exception propagation is modelled with `Except String`; the
  string is a description of the exception class, never inspected.
* The filesystem and the network are explicit parameters: a file is
  absent, parses to a `Json` value, or is malformed (models the result
  of `json.loads` without re-implementing the JSON grammar); an HTTP
  request fails at transport level or yields a status code and a body
  that either parses to JSON or does not (models `requests`).
* External library calls (`dask.array.from_zarr`, `vispy.Colormap`,
  `urllib.parse.urlparse`, `os.path.join`) are modelled by their
  documented behaviour on the inputs the module produces: a lazy array
  is identified by the address it is opened at, a colormap by its list
  of control colors.
-/

set_option autoImplicit false

namespace OmeZarr

/-- JSON values as produced by `json.loads` / `rsp.json()`.  Numbers are
modelled as integers. -/
inductive Json where
  | null
  | bool (b : Bool)
  | num (n : Int)
  | str (s : String)
  | arr (elems : List Json)
  | obj (fields : List (String × Json))
  deriving Inhabited

namespace Json

/-- Python truthiness of a JSON-derived value (`None`, `False`, `0`, `""`,
`[]`, `{}` are falsy). -/
def truthy : Json → Bool
  | .null => false
  | .bool b => b
  | .num n => n != 0
  | .str s => !s.data.isEmpty
  | .arr xs => !xs.isEmpty
  | .obj fs => !fs.isEmpty

/-- Key lookup in an object's field list.  `json.loads` keeps the last
binding of a duplicated key, so lookup scans from the right. -/
def lookupKey (fs : List (String × Json)) (k : String) : Option Json :=
  match fs with
  | [] => none
  | (k', v) :: rest =>
      match lookupKey rest k with
      | some v' => some v'
      | none => if k' = k then some v else none

/-- Python subscript `x[k]` with a string key.  A dict yields the value or
`KeyError`; every other value raises (`TypeError` for lists/ints/...,
string subscripts need integers). -/
def subscriptStr : Json → String → Except String Json
  | .obj fs, k =>
      match lookupKey fs k with
      | some v => .ok v
      | none => .error "KeyError"
  | _, _ => .error "TypeError"

/-- Python subscript `x[i]` with a non-negative integer.  Lists index,
strings index into characters, dicts raise `KeyError` (JSON objects have
string keys only), other values raise `TypeError`. -/
def subscriptNat : Json → Nat → Except String Json
  | .arr xs, i =>
      match xs.get? i with
      | some v => .ok v
      | none => .error "IndexError"
  | .str s, i =>
      match s.data.get? i with
      | some c => .ok (.str (String.mk [c]))
      | none => .error "IndexError"
  | .obj _, _ => .error "KeyError"
  | _, _ => .error "TypeError"

/-- Does an element of a JSON list compare `==` (in the Python sense) to
the string `k`?  Only an equal string does. -/
def eqStr (k : String) : Json → Bool
  | .str s => s = k
  | _ => false

/-- Is `needle` an initial segment of `hay`? -/
def charsStart (needle hay : List Char) : Bool :=
  match needle, hay with
  | [], _ => true
  | _ :: _, [] => false
  | a :: as, b :: bs => a = b && charsStart as bs

/-- Does `needle` occur as a contiguous run in `hay`?  (Python `in` on
strings.) -/
def charsContain (needle : List Char) : List Char → Bool
  | [] => needle.isEmpty
  | c :: rest => charsStart needle (c :: rest) || charsContain needle rest

/-- Python `"k" in x`: key membership for dicts, element membership for
lists, substring test for strings, `TypeError` otherwise. -/
def hasKey : Json → String → Except String Bool
  | .obj fs, k => .ok (fs.any (fun f => f.1 = k))
  | .arr xs, k => .ok (xs.any (eqStr k))
  | .str s, k => .ok (charsContain k.data s.data)
  | _, _ => .error "TypeError"

/-- Python iteration `for x in v`: lists yield elements, strings yield
one-character strings, dicts yield their keys, other values raise
`TypeError`. -/
def pyIter : Json → Except String (List Json)
  | .arr xs => .ok xs
  | .str s => .ok (s.data.map (fun c => .str (String.mk [c])))
  | .obj fs => .ok (fs.map (fun f => .str f.1))
  | _ => .error "TypeError"

mutual

/-- Python `repr` of a JSON-derived value (string escaping inside nested
strings is not modelled; no claim depends on it). -/
def pyRepr : Json → String
  | .null => "None"
  | .bool true => "True"
  | .bool false => "False"
  | .num n => toString n
  | .str s => "'" ++ s ++ "'"
  | .arr xs => "[" ++ String.intercalate ", " (pyReprList xs) ++ "]"
  | .obj fs => "\x7b" ++ String.intercalate ", " (pyReprFields fs) ++ "\x7d"

def pyReprList : List Json → List String
  | [] => []
  | j :: rest => pyRepr j :: pyReprList rest

def pyReprFields : List (String × Json) → List String
  | [] => []
  | (k, v) :: rest => ("'" ++ k ++ "': " ++ pyRepr v) :: pyReprFields rest

end

/-- Python `str()` as used by f-string interpolation: identity on strings,
`repr`-like otherwise. -/
def pyStr : Json → String
  | .str s => s
  | j => pyRepr j

end Json

/-! ### Model of `int(s, 16)` -/

/-- Whitespace stripped by Python's `int(str, base)` (the ASCII subset;
no claim involves exotic unicode whitespace). -/
def pyWs (c : Char) : Bool :=
  c.toNat = 32 || c.toNat = 9 || c.toNat = 10 || c.toNat = 13 ||
    c.toNat = 11 || c.toNat = 12

/-- Value of one hexadecimal digit character, if it is one. -/
def hexDigitVal (c : Char) : Option Nat :=
  let n := c.toNat
  if 48 ≤ n ∧ n ≤ 57 then some (n - 48)
  else if 97 ≤ n ∧ n ≤ 102 then some (n - 87)
  else if 65 ≤ n ∧ n ≤ 70 then some (n - 55)
  else none

/-- Accumulate hexadecimal digits; fails on the first non-digit. -/
def hexNatAux : List Char → Nat → Option Nat
  | [], acc => some acc
  | c :: rest, acc =>
      match hexDigitVal c with
      | some d => hexNatAux rest (acc * 16 + d)
      | none => none

/-- Model of Python `int(s, 16)` on the character list: strip
whitespace, optional sign, optional `0x`/`0X` prefix, then a non-empty
run of hex digits (digit group separators are not modelled; no claim
involves them).  `none` models `ValueError`. -/
def pyIntHexCore (cs0 : List Char) : Option Int :=
  let cs := ((cs0.dropWhile pyWs).reverse.dropWhile pyWs).reverse
  let signAndRest : Int × List Char :=
    match cs with
    | c :: r =>
        if c.toNat = 43 then (1, r)
        else if c.toNat = 45 then (-1, r)
        else (1, cs)
    | [] => (1, [])
  let body : List Char :=
    match signAndRest.2 with
    | c0 :: cx :: r =>
        if c0.toNat = 48 ∧ (cx.toNat = 120 ∨ cx.toNat = 88) then r
        else signAndRest.2
    | _ => signAndRest.2
  match body with
  | [] => none
  | _ => (hexNatAux body 0).map (fun n => signAndRest.1 * n)

/-- Model of Python `int(s, 16)`. -/
def pyIntHex (s : String) : Option Int :=
  pyIntHexCore s.data

/-! ### Store environments (filesystem and network) -/

/-- What the local filesystem holds at a given filename, as seen through
`os.path.exists` + `json.loads`: the file is absent, or its content
parses to a JSON value, or it exists but is not valid JSON. -/
inductive FsFile where
  | absent
  | jsonFile (j : Json)
  | malformed
  deriving Inhabited

/-- What `requests.get` yields for a given URL: a transport-level failure
(raised by `requests.get` itself), or a response with a status code and
a body that either parses as JSON (`some j`, what `rsp.json()` returns)
or does not (`none`, `rsp.json()` raises). -/
inductive RemoteAnswer where
  | netError
  | response (status : Nat) (body : Option Json)
  deriving Inhabited

/-- A store environment: the filesystem and the network, both immutable
during one invocation. -/
structure Env where
  fs : String → FsFile
  net : String → RemoteAnswer

/-- Python `str.startswith`. -/
def pyStartsWith (s pre : String) : Bool :=
  Json.charsStart pre.data s.data

/-- Python `str.endswith`. -/
def pyEndsWith (s suf : String) : Bool :=
  Json.charsStart suf.data.reverse s.data.reverse

/-- Model of `os.path.join(a, b)` for POSIX paths as used here (`b` is a
fixed relative document name; an absolute `b` replaces `a`). -/
def osPathJoin (a b : String) : String :=
  if pyStartsWith b "/" then b
  else if a = "" ∨ pyEndsWith a "/" then a ++ b
  else a ++ "/" ++ b

/-- `LocalZarr.get_json`: join root and subpath; absent file yields an
empty mapping, a present file is parsed with `json.loads`, whose failure
propagates (uncaught). -/
def LocalZarr.get_json (fs : String → FsFile) (zarr_path subpath : String) :
    Except String Json :=
  match fs (osPathJoin zarr_path subpath) with
  | .absent => .ok (.obj [])
  | .jsonFile j => .ok j
  | .malformed => .error "JSONDecodeError"

/-- `RemoteZarr.get_json`, together with whether its `except` branch
printed the `FIXME` diagnostic: GET `zarr_path ++ subpath`; a transport
failure propagates (it is raised before the `try`); a 403 yields an
empty mapping; otherwise the body is parsed, and a parse failure is
caught, printing a diagnostic and yielding an empty mapping. -/
def RemoteZarr.get_json_traced (net : String → RemoteAnswer)
    (zarr_path subpath : String) : Except String Json × Bool :=
  match net (zarr_path ++ subpath) with
  | .netError => (.error "ConnectionError", false)
  | .response status body =>
      if status = 403 then (.ok (.obj []), false)
      else
        match body with
        | some j => (.ok j, false)
        | none => (.ok (.obj []), true)

/-- The value returned by `RemoteZarr.get_json`. -/
def RemoteZarr.get_json (net : String → RemoteAnswer)
    (zarr_path subpath : String) : Except String Json :=
  (RemoteZarr.get_json_traced net zarr_path subpath).1

/-! ### Model of `urllib.parse.urlparse` (scheme and path components) -/

/-- The fields of the parse result that `napari_get_reader` uses. -/
structure ParsedUrl where
  scheme : String
  path : String
  deriving Inhabited

/-- Characters allowed in a URL scheme. -/
def isSchemeChar (c : Char) : Bool :=
  c.isAlphanum || c = '+' || c = '-' || c = '.'

/-- Split a character list at the first occurrence of `c`, if any. -/
def splitOnFirst (c : Char) : List Char → Option (List Char × List Char)
  | [] => none
  | x :: rest =>
      if x = c then some ([], rest)
      else (splitOnFirst c rest).map (fun p => (x :: p.1, p.2))

/-- Model of `urllib.parse.urlparse` restricted to the `scheme` and
`path` components (the only ones the module reads): a leading
`scheme:` made of scheme characters is split off and lowercased; a
following `//netloc` is dropped up to the next `/`, `?` or `#`; the
fragment and query are then stripped from the remainder. -/
def urlparse (url : String) : ParsedUrl :=
  let cs := url.data
  let schemeAndRest : List Char × List Char :=
    match splitOnFirst ':' cs with
    | some (pre, post) =>
        if pre.length > 0 && pre.all isSchemeChar then (pre.map Char.toLower, post)
        else ([], cs)
    | none => ([], cs)
  let rest := schemeAndRest.2
  let rest :=
    if rest.take 2 = ['/', '/'] then
      (rest.drop 2).dropWhile (fun c => c ≠ '/' && c ≠ '?' && c ≠ '#')
    else rest
  let rest := match splitOnFirst '#' rest with | some (a, _) => a | none => rest
  let rest := match splitOnFirst '?' rest with | some (a, _) => a | none => rest
  ⟨String.mk schemeAndRest.1, String.mk rest⟩

/-! ### The `BaseZarr` data and operations -/

/-- Model of `vispy.color.Colormap(colors)`: identified by its list of
control colors (each an RGB triple, components as exact rationals
standing for the Python float arithmetic `int(...) / 255`). -/
structure Colormap where
  colors : List (List Rat)

/-- The napari display metadata dict built by `load_omero_metadata`.  Its
key set is fixed (`colormap`, `contrast_limits`, `name`, `visible`), so
the dict is modelled as one optional field per key; `none` means the key
is absent. -/
structure OmeroMetadata where
  colormap : Option (List Colormap) := none
  contrast_limits : Option (List (Json × Json)) := none
  name : Option (List Json) := none
  visible : Option (List Json) := none

/-- The metadata dict `\x7b'channel_axis': 1, **metadata\x7d` returned by
`load_omero_zarr`. -/
structure NapariMeta where
  channel_axis : Int
  omero : OmeroMetadata

/-- The attributes a `BaseZarr` instance holds after `__init__`:
`image_data` and `root_attrs` are only assigned when `is_zarr()` held at
construction (`none` models the attribute never being set, so that
reading it raises `AttributeError`). -/
structure BaseZarrState where
  zarr_path : String
  zarray : Json
  zgroup : Json
  image_data : Option Json
  root_attrs : Option Json

/-- `BaseZarr.is_zarr`: `self.zarray or self.zgroup`, used for its
truthiness. -/
def BaseZarr.is_zarr (st : BaseZarrState) : Bool :=
  st.zarray.truthy || st.zgroup.truthy

/-- `BaseZarr.__init__`, generic in the backend's `get_json` (which takes
the normalized `zarr_path` and the document subpath).  Fetch failures
propagate out of the constructor. -/
def BaseZarr.init (fetch : String → String → Except String Json) (path : String) :
    Except String BaseZarrState := do
  let zarr_path := if pyEndsWith path "/" then path else path ++ "/"
  let zarray ← fetch zarr_path ".zarray"
  let zgroup ← fetch zarr_path ".zgroup"
  if zarray.truthy || zgroup.truthy then
    let image_data ← fetch zarr_path "omero.json"
    let root_attrs ← fetch zarr_path ".zattrs"
    pure ⟨zarr_path, zarray, zgroup, some image_data, some root_attrs⟩
  else
    pure ⟨zarr_path, zarray, zgroup, none, none⟩

/-- `BaseZarr.get_reader_function`: raises unless the instance is a zarr,
else returns `self.reader_function` — modelled as the state the returned
bound method closes over. -/
def BaseZarr.get_reader_function (st : BaseZarrState) : Except String BaseZarrState :=
  if BaseZarr.is_zarr st then .ok st else .error "Exception: not a zarr"

/-- One channel's parsed color:
`[(int(ch['color'][i:i+2], 16)/255) for i in range(0, 6, 2)]`.
`ch['color']` is re-read on each iteration, exactly as in the
comprehension; a non-string color fails (slicing a non-sliceable value
or `int()` of a non-string both raise). -/
def parseChannelColor (ch : Json) : Except String (List Rat) :=
  ([0, 2, 4] : List Nat).mapM (fun i => do
    let colorJ ← ch.subscriptStr "color"
    match colorJ with
    | .str s =>
        match pyIntHex (String.mk ((s.data.drop i).take 2)) with
        | some n => pure ((n : Rat) / 255)
        | none => Except.error "ValueError"
    | _ => Except.error "TypeError")

/-- One loop iteration of the colormap loop: parse the color, override
with white when `image_data['rdefs']['model'] == 'greyscale'`, build the
two-point colormap from black. -/
def channelColormap (image_data ch : Json) : Except String Colormap := do
  let rgb ← parseChannelColor ch
  let rdefs ← image_data.subscriptStr "rdefs"
  let model ← rdefs.subscriptStr "model"
  let rgb := if Json.eqStr "greyscale" model then ([1, 1, 1] : List Rat) else rgb
  pure ⟨[[0, 0, 0], rgb]⟩

/-- One entry of the `contrast_limits` comprehension:
`[ch['window']['start'], ch['window']['end']]`. -/
def channelWindow (ch : Json) : Except String (Json × Json) := do
  let w ← ch.subscriptStr "window"
  let s ← w.subscriptStr "start"
  let w' ← ch.subscriptStr "window"
  let e ← w'.subscriptStr "end"
  pure (s, e)

/-- The iterable `image_data['channels']`, as re-evaluated at the head of
each loop/comprehension in `load_omero_metadata`. -/
def omeroChannels (image_data : Json) : Except String (List Json) := do
  let chansJ ← image_data.subscriptStr "channels"
  chansJ.pyIter

/-- The body of `load_omero_metadata`'s `try` block with its sequential
dict assignments: a failure at any step is swallowed by the
`except Exception: pass`, keeping exactly the keys assigned before it. -/
def omeroSteps (image_data : Json) : OmeroMetadata :=
  match (omeroChannels image_data >>= fun chs => chs.mapM (channelColormap image_data)) with
  | .error _ => {}
  | .ok cms =>
    let m1 : OmeroMetadata := { colormap := some cms }
    match (omeroChannels image_data >>= fun chs => chs.mapM channelWindow) with
    | .error _ => m1
    | .ok ws =>
      let m2 : OmeroMetadata := { m1 with contrast_limits := some ws }
      match (omeroChannels image_data >>= fun chs => chs.mapM (fun ch => ch.subscriptStr "label")) with
      | .error _ => m2
      | .ok ls =>
        let m3 : OmeroMetadata := { m2 with name := some ls }
        match (omeroChannels image_data >>= fun chs => chs.mapM (fun ch => ch.subscriptStr "active")) with
        | .error _ => m3
        | .ok vs => { m3 with visible := some vs }

/-- `BaseZarr.load_omero_metadata`: reading `self.image_data` raises
`AttributeError` when the attribute was never assigned (that read is
outside the `try`); otherwise every failure inside the `try` is
swallowed and the partially filled dict is returned. -/
def BaseZarr.load_omero_metadata (image_data_attr : Option Json) :
    Except String OmeroMetadata :=
  match image_data_attr with
  | none => .error "AttributeError"
  | some image_data => .ok (omeroSteps image_data)

/-- The extraction `self.root_attrs['multiscales'][0]['datasets']` and
`[d['path'] for d in datasets]` performed when the `multiscales` key is
present. -/
def extract_multiscales (root_attrs : Json) : Except String (List Json) := do
  let ms ← root_attrs.subscriptStr "multiscales"
  let first ← ms.subscriptNat 0
  let datasets ← first.subscriptStr "datasets"
  let ds ← datasets.pyIter
  ds.mapM (fun d => d.subscriptStr "path")

/-- The resolution list of `load_omero_zarr`: defaults to `["0"]`, and is
overridden by the multiscale datasets' paths when the `multiscales` key
is present; any failure there is re-raised (`except ... raise e`). -/
def load_resolutions (root_attrs : Json) : Except String (List Json) := do
  let present ← root_attrs.hasKey "multiscales"
  if present then extract_multiscales root_attrs
  else pure [Json.str "0"]

/-- `BaseZarr.load_omero_zarr`: resolve the resolution list from
`self.root_attrs`, open one lazy array per resolution at
`f"\x7bself.zarr_path\x7d\x7bresolution\x7d"` (the pyramid is modelled by the
ordered list of those addresses), then attach the display metadata
merged after `channel_axis: 1`. -/
def BaseZarr.load_omero_zarr (st : BaseZarrState) :
    Except String (List String × NapariMeta) := do
  let root_attrs ← match st.root_attrs with
    | none => Except.error "AttributeError"
    | some ra => pure ra
  let resolutions ← load_resolutions root_attrs
  let pyramid := resolutions.map (fun r => st.zarr_path ++ r.pyStr)
  let metadata ← BaseZarr.load_omero_metadata st.image_data
  pure (pyramid, { channel_axis := 1, omero := metadata })

/-- The argument type of the entry points: a path string or a list of
path strings. -/
inductive PathLike where
  | str (s : String)
  | list (ps : List String)

/-- `if isinstance(path, list): path = path[0]` — `path[0]` raises
`IndexError` on an empty list. -/
def firstPath : PathLike → Except String String
  | .str s => .ok s
  | .list [] => .error "IndexError"
  | .list (p :: _) => .ok p

/-- `BaseZarr.reader_function`: normalizes the (otherwise unused) path
argument, then returns `[self.load_omero_zarr()]`. -/
def BaseZarr.reader_function (st : BaseZarrState) (path : PathLike) :
    Except String (List (List String × NapariMeta)) := do
  let _ ← firstPath path
  let layer ← BaseZarr.load_omero_zarr st
  pure [layer]

/-- The classification and construction half of `napari_get_reader`:
parse the path as a URL; an empty or `file` scheme selects
`LocalZarr(result.path)`, anything else `RemoteZarr(path)`. -/
def classifyAndInit (env : Env) (path : String) : Except String BaseZarrState :=
  let result := urlparse path
  if result.scheme = "" ∨ result.scheme = "file" then
    BaseZarr.init (LocalZarr.get_json env.fs) result.path
  else
    BaseZarr.init (RemoteZarr.get_json env.net) path

/-- `napari_get_reader`: construct the store accessor, and return its
bound `reader_function` (modelled by the state it closes over) when the
store is a zarr, `None` otherwise. -/
def napari_get_reader (env : Env) (path : PathLike) :
    Except String (Option BaseZarrState) := do
  let p ← firstPath path
  let inst ← classifyAndInit env p
  if BaseZarr.is_zarr inst then
    let r ← BaseZarr.get_reader_function inst
    pure (some r)
  else
    pure none

/-! ### Spec-side definitions

These follow the specification's words, to be compared with the
definitions above that embed the source. -/

/-- Spec-side: a descriptor document is present and non-empty.  The data
model describes `.zarray`/`.zgroup` as JSON mappings whose absence is
represented by the empty mapping, so this is a non-empty mapping. -/
def presentNonEmpty (j : Json) : Prop :=
  ∃ fs, j = Json.obj fs ∧ fs ≠ []

/-- Spec-side: value of a 2-hex-digit substring. -/
def specHexPair (a b : Char) : Option Nat := do
  let d1 ← hexDigitVal a
  let d2 ← hexDigitVal b
  pure (d1 * 16 + d2)

/-- Spec-side color parse: take the 2-hex-digit substrings of a
6-hex-digit color string at offsets 0, 2, 4 and divide each by 255. -/
def specParseColor (s : String) : Option (List Rat) :=
  match s.data with
  | [a, b, c, d, e, f] => do
      let r ← specHexPair a b
      let g ← specHexPair c d
      let bl ← specHexPair e f
      pure [(r : Rat) / 255, (g : Rat) / 255, (bl : Rat) / 255]
  | _ => none

/-- Spec-side: the color ramp for one channel, from black to the parsed
color — except that a top-level `"greyscale"` display model tag forces
the endpoint to full intensity. -/
def specColormap (modelJ : Json) (rgb : List Rat) : Colormap :=
  ⟨[[0, 0, 0], if Json.eqStr "greyscale" modelJ then [1, 1, 1] else rgb]⟩

/-- Spec-side extraction of a channel's parsed color, if well-formed. -/
def specColorOf (ch : Json) : Option (List Rat) :=
  match ch.subscriptStr "color" with
  | .ok (.str s) => specParseColor s
  | _ => none

/-- Spec-side extraction of a channel's window start/end pair. -/
def specWindowOf (ch : Json) : Option (Json × Json) :=
  match ch.subscriptStr "window" with
  | .ok w =>
      match w.subscriptStr "start", w.subscriptStr "end" with
      | .ok s, .ok e => some (s, e)
      | _, _ => none
  | .error _ => none

/-- Spec-side extraction of a channel's label. -/
def specLabelOf (ch : Json) : Option Json :=
  match ch.subscriptStr "label" with
  | .ok v => some v
  | .error _ => none

/-- Spec-side extraction of a channel's active flag. -/
def specActiveOf (ch : Json) : Option Json :=
  match ch.subscriptStr "active" with
  | .ok v => some v
  | .error _ => none

/-- Spec-side validity of a `PathLike` argument: a string, or a
non-empty list of strings. -/
def PathLike.valid : PathLike → Prop
  | .str _ => True
  | .list ps => ps ≠ []

/-! ### Concrete inputs used by the witnesses -/

/-- A local store at `/data/` whose `.zarray` is a non-empty mapping. -/
def wEnv1 : Env where
  fs := fun s =>
    if s = "/data/.zarray" then .jsonFile (.obj [("zarr_format", .num 2)])
    else .absent
  net := fun _ => .netError

/-- The instance `wEnv1` and path `/data` construct. -/
def wSt1 : BaseZarrState :=
  ⟨"/data/", .obj [("zarr_format", .num 2)], .obj [], some (.obj []), some (.obj [])⟩

/-- A two-level multiscales root attributes document. -/
def wAttrs2 : Json :=
  .obj [("multiscales",
    .arr [.obj [("datasets", .arr [.obj [("path", .str "0")], .obj [("path", .str "1")]])]])]

/-- A remote store instance holding `wAttrs2`. -/
def wSt2 : BaseZarrState :=
  ⟨"https://s3.example.org/idr/1.zarr/", .obj [], .obj [("zarr_format", .num 2)],
    some (.obj []), some wAttrs2⟩

/-- A store instance with no `multiscales` key. -/
def wSt2b : BaseZarrState :=
  ⟨"https://s3.example.org/idr/2.zarr/", .obj [], .obj [("zarr_format", .num 2)],
    some (.obj []), some (.obj [])⟩

/-- The specification's example channel descriptor set:
one channel `color "FF0000"`, window 0–255, label `"R"`, active, with
display model `"color"`. -/
def wOmero3 : Json :=
  .obj [("channels",
          .arr [.obj [("color", .str "FF0000"),
                      ("window", .obj [("start", .num 0), ("end", .num 255)]),
                      ("label", .str "R"),
                      ("active", .bool true)]]),
        ("rdefs", .obj [("model", .str "color")])]

/-- A channel descriptor set whose single channel has a parsable color
but no `window` key: the colormap step succeeds and is assigned, the
contrast-limits step then fails. -/
def wOmero4 : Json :=
  .obj [("channels", .arr [.obj [("color", .str "FF0000")]]),
        ("rdefs", .obj [("model", .str "color")])]

/-- The metadata object the translator produces from `wOmero4`: only the
colormap key is assigned. -/
def wMeta4 : OmeroMetadata :=
  { colormap := some [⟨[[0, 0, 0],
      [((255 : Int) : Rat) / 255, ((0 : Int) : Rat) / 255, ((0 : Int) : Rat) / 255]]⟩] }

/-! ### Helper lemmas -/

@[simp] theorem except_bind_ok {ε α β : Type} (a : α) (f : α → Except ε β) :
    (Except.ok a >>= f) = f a := rfl

@[simp] theorem except_bind_error {ε α β : Type} (e : ε) (f : α → Except ε β) :
    ((Except.error e : Except ε α) >>= f) = .error e := rfl

@[simp] theorem except_map_ok {ε α β : Type} (a : α) (f : α → β) :
    (f <$> (Except.ok a : Except ε α)) = (.ok (f a) : Except ε β) := rfl

@[simp] theorem except_map_error {ε α β : Type} (e : ε) (f : α → β) :
    (f <$> (Except.error e : Except ε α)) = (.error e : Except ε β) := rfl

@[simp] theorem except_pure_eq_ok {ε α : Type} (a : α) :
    (pure a : Except ε α) = .ok a := rfl

theorem truthy_obj_iff (fs : List (String × Json)) :
    Json.truthy (.obj fs) = true ↔ fs ≠ [] := by
  cases fs <;> simp [Json.truthy]

theorem lookupKey_eq_none_iff (fs : List (String × Json)) (k : String) :
    Json.lookupKey fs k = none ↔ fs.any (fun f => f.1 = k) = false := by
  induction fs with
  | nil => simp [Json.lookupKey]
  | cons p rest ih =>
      obtain ⟨k', v⟩ := p
      rcases h : Json.lookupKey rest k with _ | v'
      · rw [h] at ih
        simp only [Json.lookupKey, h, List.any_cons]
        by_cases hk : k' = k <;> simp [hk, ih.mp rfl]
      · have : Json.lookupKey rest k ≠ none := by rw [h]; exact Option.some_ne_none v'
        simp only [Json.lookupKey, h, List.any_cons]
        constructor
        · intro hc; exact absurd hc (Option.some_ne_none v')
        · intro hc
          rcases Bool.or_eq_false_iff.mp hc with ⟨_, h2⟩
          exact absurd (ih.mpr h2) this

theorem mapM_ok_of_forall {α β : Type} (f : α → Except String β) (g : α → β) :
    ∀ l : List α, (∀ a ∈ l, f a = .ok (g a)) → l.mapM f = .ok (l.map g) := by
  intro l h
  induction l with
  | nil => rfl
  | cons a t ih =>
      rw [List.map_cons, List.mapM_cons, h a (List.mem_cons_self a t),
        ih (fun x hx => h x (List.mem_cons_of_mem a hx))]
      rfl

theorem firstPath_of_valid (p : PathLike) (hp : p.valid) :
    ∃ s, firstPath p = .ok s := by
  cases p with
  | str s => exact ⟨s, rfl⟩
  | list ps =>
      cases ps with
      | nil => exact absurd rfl hp
      | cons a t => exact ⟨a, rfl⟩

theorem omeroSteps_empty_obj : omeroSteps (.obj []) = {} := rfl

theorem presentNonEmpty_obj_iff (fs : List (String × Json)) :
    presentNonEmpty (.obj fs) ↔ fs ≠ [] := by
  constructor
  · rintro ⟨fs', heq, hne⟩
    injection heq with h
    exact h ▸ hne
  · intro h
    exact ⟨fs, rfl, h⟩

theorem hex_char_range {c : Char} {d : Nat} (h : hexDigitVal c = some d) :
    (48 ≤ c.toNat ∧ c.toNat ≤ 57) ∨ (97 ≤ c.toNat ∧ c.toNat ≤ 102) ∨
      (65 ≤ c.toNat ∧ c.toNat ≤ 70) := by
  simp only [hexDigitVal] at h
  split_ifs at h with h1 h2 h3
  · exact Or.inl h1
  · exact Or.inr (Or.inl h2)
  · exact Or.inr (Or.inr h3)

theorem hex_not_pyWs {c : Char} {d : Nat} (h : hexDigitVal c = some d) :
    pyWs c = false := by
  rcases hex_char_range h with ⟨h1, h2⟩ | ⟨h1, h2⟩ | ⟨h1, h2⟩ <;>
    · unfold pyWs
      simp only [Bool.or_eq_false_iff, decide_eq_false_iff_not]
      omega

theorem pyIntHex_two {a b : Char} {d1 d2 : Nat}
    (ha : hexDigitVal a = some d1) (hb : hexDigitVal b = some d2) :
    pyIntHex (String.mk [a, b]) = some ((d1 * 16 + d2 : Nat) : Int) := by
  have wsa := hex_not_pyWs ha
  have wsb := hex_not_pyWs hb
  have na1 : ¬(a.toNat = 43) := by
    rcases hex_char_range ha with ⟨g1, g2⟩ | ⟨g1, g2⟩ | ⟨g1, g2⟩ <;> omega
  have na2 : ¬(a.toNat = 45) := by
    rcases hex_char_range ha with ⟨g1, g2⟩ | ⟨g1, g2⟩ | ⟨g1, g2⟩ <;> omega
  have nb : ¬(a.toNat = 48 ∧ (b.toNat = 120 ∨ b.toNat = 88)) := by
    rcases hex_char_range hb with ⟨g1, g2⟩ | ⟨g1, g2⟩ | ⟨g1, g2⟩ <;> omega
  show pyIntHexCore [a, b] = some ((d1 * 16 + d2 : Nat) : Int)
  simp [pyIntHexCore, List.dropWhile, wsa, wsb, na1, na2, nb, hexNatAux, ha, hb]

theorem specHexPair_inv {a b : Char} {v : Nat} (h : specHexPair a b = some v) :
    ∃ d1 d2, hexDigitVal a = some d1 ∧ hexDigitVal b = some d2 ∧ v = d1 * 16 + d2 := by
  unfold specHexPair at h
  cases ha : hexDigitVal a with
  | none => rw [ha] at h; exact absurd h (by simp)
  | some d1 =>
      cases hb : hexDigitVal b with
      | none => rw [ha, hb] at h; exact absurd h (by simp)
      | some d2 =>
          rw [ha, hb] at h
          simp at h
          exact ⟨d1, d2, rfl, rfl, by omega⟩

theorem parseChannelColor_eq_spec {ch : Json} {s : String} {rgb : List Rat}
    (hc : ch.subscriptStr "color" = .ok (.str s))
    (hp : specParseColor s = some rgb) :
    parseChannelColor ch = .ok rgb := by
  unfold specParseColor at hp
  split at hp
  case h_2 => exact absurd hp (by simp)
  case h_1 a b c d e f hdata =>
    cases h1 : specHexPair a b with
    | none => rw [h1] at hp; exact absurd hp (by simp)
    | some r =>
    cases h2 : specHexPair c d with
    | none => rw [h1, h2] at hp; exact absurd hp (by simp)
    | some g =>
    cases h3 : specHexPair e f with
    | none => rw [h1, h2, h3] at hp; exact absurd hp (by simp)
    | some bl =>
    rw [h1, h2, h3] at hp
    simp at hp
    obtain ⟨d1, d2, ha1, hb1, hr⟩ := specHexPair_inv h1
    obtain ⟨d3, d4, hc1, hd1, hg⟩ := specHexPair_inv h2
    obtain ⟨d5, d6, he1, hf1, hbl⟩ := specHexPair_inv h3
    subst hp hr hg hbl
    unfold parseChannelColor
    rw [List.mapM_cons, List.mapM_cons, List.mapM_cons, List.mapM_nil]
    simp only [hc, except_bind_ok, hdata]
    simp only [List.drop, List.take]
    rw [pyIntHex_two ha1 hb1, pyIntHex_two hc1 hd1, pyIntHex_two he1 hf1]
    simp [Int.cast_natCast]

/-! ### Claim C1 -/

/-- C1: `napari_get_reader` returns `None` exactly when the store
constructed at the input path has neither a present, non-empty array
descriptor nor a present, non-empty group descriptor (descriptor
documents are JSON mappings, absence being fetched as the empty
mapping); when at least one is present and non-empty it returns the
reader function bound to that store. -/
theorem napari_get_reader_none_iff_no_descriptor (env : Env) (p : PathLike)
    (st : BaseZarrState)
    (h : (firstPath p).bind (classifyAndInit env) = .ok st)
    (ha : ∃ fs, st.zarray = Json.obj fs) (hg : ∃ fs, st.zgroup = Json.obj fs) :
    (napari_get_reader env p = .ok none ↔
      ¬(presentNonEmpty st.zarray ∨ presentNonEmpty st.zgroup)) ∧
    ((presentNonEmpty st.zarray ∨ presentNonEmpty st.zgroup) →
      napari_get_reader env p = .ok (some st)) := by
  obtain ⟨fsa, hfa⟩ := ha
  obtain ⟨fsg, hfg⟩ := hg
  have key : BaseZarr.is_zarr st = true ↔
      (presentNonEmpty st.zarray ∨ presentNonEmpty st.zgroup) := by
    rw [BaseZarr.is_zarr, hfa, hfg, Bool.or_eq_true, truthy_obj_iff, truthy_obj_iff,
      presentNonEmpty_obj_iff, presentNonEmpty_obj_iff]
  cases hfp : firstPath p with
  | error e =>
      rw [hfp] at h
      exact absurd h (by simp [Except.bind])
  | ok s =>
      rw [hfp] at h
      simp only [Except.bind] at h
      by_cases hz : BaseZarr.is_zarr st
      · have : napari_get_reader env p = .ok (some st) := by
          simp [napari_get_reader, hfp, h, hz, BaseZarr.get_reader_function]
        refine ⟨?_, fun _ => this⟩
        rw [this]
        simp [key.mp hz]
      · have : napari_get_reader env p = .ok none := by
          simp [napari_get_reader, hfp, h, hz]
        refine ⟨⟨fun _ hc => hz (key.mpr hc), fun _ => this⟩,
          fun hpres => absurd (key.mpr hpres) hz⟩

theorem napari_get_reader_none_iff_no_descriptor_witness :
    napari_get_reader wEnv1 (.str "/data") = .ok (some wSt1) :=
  (napari_get_reader_none_iff_no_descriptor wEnv1 (.str "/data") wSt1 rfl
      ⟨[("zarr_format", .num 2)], rfl⟩ ⟨[], rfl⟩).2
    (Or.inl ⟨[("zarr_format", .num 2)], rfl, by simp⟩)

/-! ### Claim C2 -/

/-- C2: with the root attributes a mapping, the resolved pyramid is: one
level per entry of `multiscales[0].datasets`, in order, each opened at
the store root concatenated with the entry's `path` — and exactly the
single level opened at `root ++ "0"` when there is no `multiscales`
key. -/
theorem load_omero_zarr_resolves_pyramid (st : BaseZarrState)
    (fsa : List (String × Json)) (img : Json)
    (hroot : st.root_attrs = some (.obj fsa)) (himg : st.image_data = some img) :
    (Json.lookupKey fsa "multiscales" = none →
      Except.map Prod.fst (BaseZarr.load_omero_zarr st) = .ok [st.zarr_path ++ "0"]) ∧
    (∀ m0 mrest ds ps,
      Json.lookupKey fsa "multiscales" = some (.arr (m0 :: mrest)) →
      m0.subscriptStr "datasets" = .ok (.arr ds) →
      ds.mapM (fun d => d.subscriptStr "path") = .ok ps →
      Except.map Prod.fst (BaseZarr.load_omero_zarr st) =
        .ok (ps.map (fun q => st.zarr_path ++ q.pyStr))) := by
  constructor
  · intro h
    have hany := (lookupKey_eq_none_iff fsa "multiscales").mp h
    simp [BaseZarr.load_omero_zarr, hroot, himg, load_resolutions, Json.hasKey, hany,
      BaseZarr.load_omero_metadata, Except.map, Json.pyStr]
  · intro m0 mrest ds ps hms hds hps
    have hany : fsa.any (fun f => f.1 = "multiscales") = true := by
      cases h' : fsa.any (fun f => f.1 = "multiscales") with
      | false =>
          rw [(lookupKey_eq_none_iff fsa "multiscales").mpr h'] at hms
          exact Option.noConfusion hms
      | true => rfl
    have hext : extract_multiscales (.obj fsa) = .ok ps := by
      rw [extract_multiscales]
      rw [show (Json.obj fsa).subscriptStr "multiscales" = .ok (.arr (m0 :: mrest)) by
        simp [Json.subscriptStr, hms]]
      simp only [except_bind_ok]
      rw [show (Json.arr (m0 :: mrest)).subscriptNat 0 = .ok m0 from rfl]
      simp only [except_bind_ok]
      rw [hds]
      simp only [except_bind_ok]
      rw [show (Json.arr ds).pyIter = .ok ds from rfl]
      simp only [except_bind_ok]
      exact hps
    simp [BaseZarr.load_omero_zarr, hroot, himg, load_resolutions, Json.hasKey, hany,
      hext, BaseZarr.load_omero_metadata, Except.map]

theorem load_omero_zarr_resolves_pyramid_witness :
    Except.map Prod.fst (BaseZarr.load_omero_zarr wSt2) =
      .ok ["https://s3.example.org/idr/1.zarr/0", "https://s3.example.org/idr/1.zarr/1"] ∧
    Except.map Prod.fst (BaseZarr.load_omero_zarr wSt2b) =
      .ok ["https://s3.example.org/idr/2.zarr/0"] := by
  constructor
  · rw [(load_omero_zarr_resolves_pyramid wSt2
        [("multiscales",
          .arr [.obj [("datasets",
            .arr [.obj [("path", .str "0")], .obj [("path", .str "1")]])]])]
        (.obj []) rfl rfl).2
      (.obj [("datasets", .arr [.obj [("path", .str "0")], .obj [("path", .str "1")]])])
      [] [.obj [("path", .str "0")], .obj [("path", .str "1")]]
      [.str "0", .str "1"] rfl rfl rfl]
    rfl
  · exact (load_omero_zarr_resolves_pyramid wSt2b [] (.obj []) rfl rfl).1 rfl

/-! ### Claim C8 -/

/-- C8: a successful call of the reader function yields a list holding
exactly one (pyramid, metadata) tuple whose metadata carries
`channel_axis = 1`; when `omero.json` was absent (fetched as the empty
mapping), the remaining metadata is empty. -/
theorem reader_function_single_layer_channel_axis (st : BaseZarrState) (p : PathLike)
    (layers : List (List String × NapariMeta))
    (h : BaseZarr.reader_function st p = .ok layers) :
    ∃ pyr meta, layers = [(pyr, meta)] ∧ meta.channel_axis = 1 ∧
      (st.image_data = some (.obj []) → meta.omero = {}) := by
  cases hfp : firstPath p with
  | error e => rw [BaseZarr.reader_function, hfp] at h; exact absurd h (by simp)
  | ok s =>
      rw [BaseZarr.reader_function, hfp] at h
      simp only [except_bind_ok] at h
      cases hz : BaseZarr.load_omero_zarr st with
      | error e => rw [hz] at h; exact absurd h (by simp)
      | ok lm =>
          rw [hz] at h
          simp only [except_bind_ok, except_pure_eq_ok, Except.ok.injEq] at h
          obtain ⟨pyr, meta⟩ := lm
          refine ⟨pyr, meta, h.symm, ?_⟩
          cases hra : st.root_attrs with
          | none => rw [BaseZarr.load_omero_zarr, hra] at hz; exact absurd hz (by simp)
          | some ra =>
              rw [BaseZarr.load_omero_zarr, hra] at hz
              simp only [except_pure_eq_ok, except_bind_ok] at hz
              cases hres : load_resolutions ra with
              | error e => rw [hres] at hz; exact absurd hz (by simp)
              | ok res =>
                  rw [hres] at hz
                  cases himg : st.image_data with
                  | none =>
                      rw [himg] at hz
                      rw [show BaseZarr.load_omero_metadata none =
                        .error "AttributeError" from rfl] at hz
                      exact absurd hz (by simp)
                  | some img =>
                      rw [himg] at hz
                      rw [show BaseZarr.load_omero_metadata (some img) =
                        .ok (omeroSteps img) from rfl] at hz
                      simp only [except_bind_ok, except_pure_eq_ok, Except.ok.injEq,
                        Prod.mk.injEq] at hz
                      obtain ⟨-, hmeta⟩ := hz
                      constructor
                      · rw [← hmeta]
                      · intro habs
                        injection habs with habs
                        rw [← hmeta, habs]
                        exact omeroSteps_empty_obj

theorem reader_function_single_layer_channel_axis_witness :
    ∃ pyr meta,
      ([(["/data/0"], ⟨1, {}⟩)] : List (List String × NapariMeta)) = [(pyr, meta)] ∧
      meta.channel_axis = 1 ∧ (wSt1.image_data = some (.obj []) → meta.omero = {}) :=
  reader_function_single_layer_channel_axis wSt1 (.str "/data") _ rfl

/-! ### Claim C5 -/

/-- C5: for every relative path, the remote metadata fetcher returns an
empty mapping when the response status is 403 (without the diagnostic),
returns an empty mapping after printing the diagnostic for any other
status whose body fails to parse as JSON, and returns the parsed value
for any other status whose body parses; no exception escapes in any of
these cases, so a 403 is indistinguishable from an absent document. -/
theorem remote_get_json_error_handling (net : String → RemoteAnswer) (zp sp : String) :
    (∀ body, net (zp ++ sp) = .response 403 body →
      RemoteZarr.get_json_traced net zp sp = (.ok (.obj []), false)) ∧
    (∀ s, s ≠ 403 → net (zp ++ sp) = .response s none →
      RemoteZarr.get_json_traced net zp sp = (.ok (.obj []), true)) ∧
    (∀ s j, s ≠ 403 → net (zp ++ sp) = .response s (some j) →
      RemoteZarr.get_json net zp sp = .ok j) := by
  refine ⟨fun body h => ?_, fun s hs h => ?_, fun s j hs h => ?_⟩ <;>
    simp [RemoteZarr.get_json, RemoteZarr.get_json_traced, *]

/-- A network with a 403 document, a present-but-malformed document and
a well-formed document. -/
def wNet5 : String → RemoteAnswer := fun u =>
  if u = "https://x/a.zarr/omero.json" then .response 403 none
  else if u = "https://x/a.zarr/.zattrs" then .response 200 none
  else .response 200 (some (.obj [("a", .num 1)]))

theorem remote_get_json_error_handling_witness :
    RemoteZarr.get_json_traced wNet5 "https://x/a.zarr/" "omero.json" = (.ok (.obj []), false) ∧
    RemoteZarr.get_json_traced wNet5 "https://x/a.zarr/" ".zattrs" = (.ok (.obj []), true) ∧
    RemoteZarr.get_json wNet5 "https://x/a.zarr/" ".zgroup" = .ok (.obj [("a", .num 1)]) :=
  ⟨(remote_get_json_error_handling wNet5 "https://x/a.zarr/" "omero.json").1 none rfl,
   (remote_get_json_error_handling wNet5 "https://x/a.zarr/" ".zattrs").2.1 200 (by decide) rfl,
   (remote_get_json_error_handling wNet5 "https://x/a.zarr/" ".zgroup").2.2 200 _ (by decide) rfl⟩

/-! ### Claim C6 -/

/-- C6: the local metadata fetcher returns an empty mapping without
raising when the joined file does not exist, returns the parsed JSON of
an existing file, and lets a parse failure on an existing file propagate
as a fatal error — stricter than the remote variant, which degrades
malformed JSON to an empty mapping. -/
theorem local_get_json_error_handling (fs : String → FsFile) (zp sp : String) :
    (fs (osPathJoin zp sp) = .absent → LocalZarr.get_json fs zp sp = .ok (.obj [])) ∧
    (∀ j, fs (osPathJoin zp sp) = .jsonFile j → LocalZarr.get_json fs zp sp = .ok j) ∧
    (fs (osPathJoin zp sp) = .malformed →
      LocalZarr.get_json fs zp sp = .error "JSONDecodeError") ∧
    (∀ net s, s ≠ 403 → net (zp ++ sp) = .response s none →
      RemoteZarr.get_json net zp sp = .ok (.obj [])) := by
  refine ⟨fun h => ?_, fun j h => ?_, fun h => ?_, fun net s hs h => ?_⟩ <;>
    simp [LocalZarr.get_json, RemoteZarr.get_json, RemoteZarr.get_json_traced, *]

/-- A filesystem with one parseable file and one malformed file. -/
def wFs6 : String → FsFile := fun s =>
  if s = "/st/.zgroup" then .jsonFile (.obj [("zarr_format", .num 2)])
  else if s = "/st/.zattrs" then .malformed
  else .absent

theorem local_get_json_error_handling_witness :
    LocalZarr.get_json wFs6 "/st/" ".zarray" = .ok (.obj []) ∧
    LocalZarr.get_json wFs6 "/st/" ".zgroup" = .ok (.obj [("zarr_format", .num 2)]) ∧
    LocalZarr.get_json wFs6 "/st/" ".zattrs" = .error "JSONDecodeError" ∧
    RemoteZarr.get_json (fun _ => .response 200 none) "/st/" ".zattrs" = .ok (.obj []) :=
  ⟨(local_get_json_error_handling wFs6 "/st/" ".zarray").1 rfl,
   (local_get_json_error_handling wFs6 "/st/" ".zgroup").2.1 _ rfl,
   (local_get_json_error_handling wFs6 "/st/" ".zattrs").2.2.1 rfl,
   (local_get_json_error_handling wFs6 "/st/" ".zattrs").2.2.2
     (fun _ => .response 200 none) 200 (by decide) rfl⟩

/-! ### Claim C7 -/

/-- C7: the pyramid resolver distinguishes an absent `multiscales` key
(success with the default single-level list) from a present key whose
extraction fails (the error is re-raised, and `load_omero_zarr` then
fails with it, so no pyramid is returned). -/
theorem load_resolutions_absent_vs_malformed (fsa : List (String × Json)) :
    (Json.lookupKey fsa "multiscales" = none →
      load_resolutions (.obj fsa) = .ok [Json.str "0"]) ∧
    (∀ v e, Json.lookupKey fsa "multiscales" = some v →
      extract_multiscales (.obj fsa) = .error e →
      load_resolutions (.obj fsa) = .error e) ∧
    (∀ st ra e, st.root_attrs = some ra → load_resolutions ra = .error e →
      BaseZarr.load_omero_zarr st = .error e) := by
  refine ⟨fun h => ?_, fun v e hv he => ?_, fun st ra e hst hra => ?_⟩
  · have := (lookupKey_eq_none_iff fsa "multiscales").mp h
    simp [load_resolutions, Json.hasKey, this]
  · have hany : fsa.any (fun f => f.1 = "multiscales") = true := by
      rcases h' : fsa.any (fun f => f.1 = "multiscales") with _ | _
      · rw [(lookupKey_eq_none_iff fsa "multiscales").mpr h'] at hv
        exact Option.noConfusion hv
      · rfl
    simp [load_resolutions, Json.hasKey, hany, he]
  · simp [BaseZarr.load_omero_zarr, hst, hra]

/-- A root attributes document whose `multiscales` entry is an empty
list, so that `[0]` raises `IndexError`. -/
def wAttrs7 : List (String × Json) := [("multiscales", .arr [])]

/-- A store instance holding `wAttrs7`. -/
def wSt7 : BaseZarrState :=
  ⟨"/bad/", .obj [], .obj [("zarr_format", .num 2)], some (.obj []),
    some (.obj wAttrs7)⟩

theorem load_resolutions_absent_vs_malformed_witness :
    load_resolutions (.obj []) = .ok [Json.str "0"] ∧
    load_resolutions (.obj wAttrs7) = .error "IndexError" ∧
    BaseZarr.load_omero_zarr wSt7 = .error "IndexError" :=
  ⟨(load_resolutions_absent_vs_malformed []).1 rfl,
   (load_resolutions_absent_vs_malformed wAttrs7).2.1 (.arr []) "IndexError" rfl rfl,
   (load_resolutions_absent_vs_malformed wAttrs7).2.2 wSt7 (.obj wAttrs7) "IndexError" rfl
     ((load_resolutions_absent_vs_malformed wAttrs7).2.1 (.arr []) "IndexError" rfl rfl)⟩

/-! ### Claim C3 -/

theorem specWindowOf_channelWindow {ch : Json} {p : Json × Json}
    (hw : specWindowOf ch = some p) : channelWindow ch = .ok p := by
  unfold specWindowOf at hw
  split at hw
  case h_2 => exact absurd hw (by simp)
  case h_1 w hwc =>
    split at hw
    case h_2 => exact absurd hw (by simp)
    case h_1 sv ev hsv hev =>
      injection hw with hw
      subst hw
      rw [channelWindow]
      simp only [hwc, except_bind_ok, hsv, hev, except_pure_eq_ok]

theorem specLabelOf_subscript {ch : Json} {v : Json}
    (hl : specLabelOf ch = some v) : ch.subscriptStr "label" = .ok v := by
  unfold specLabelOf at hl
  split at hl
  case h_1 v' heq => injection hl with hl; subst hl; exact heq
  case h_2 => exact absurd hl (by simp)

theorem specActiveOf_subscript {ch : Json} {v : Json}
    (hl : specActiveOf ch = some v) : ch.subscriptStr "active" = .ok v := by
  unfold specActiveOf at hl
  split at hl
  case h_1 v' heq => injection hl with hl; subst hl; exact heq
  case h_2 => exact absurd hl (by simp)

/-- C3: for a well-formed channel descriptor set (each channel has a
parsable 6-hex-digit color, a window with start and end, a label, and an
active flag, and the root has `rdefs.model`), the translator fills all
four sequences, index-aligned with the channels: each colormap runs from
black to the parsed color (overridden to full intensity by a
`"greyscale"` model tag), the contrast-limit pair is the window's start
and end, the name is the label and the visibility is the active flag;
each sequence has the same length as the channels sequence. -/
theorem load_omero_metadata_translates_channels (img : Json) (chs : List Json)
    (modelJ : Json)
    (hch : img.subscriptStr "channels" = .ok (.arr chs))
    (hrd : (img.subscriptStr "rdefs").bind (fun r => r.subscriptStr "model") = .ok modelJ)
    (hwf : ∀ ch ∈ chs, (specColorOf ch).isSome ∧ (specWindowOf ch).isSome ∧
      (specLabelOf ch).isSome ∧ (specActiveOf ch).isSome) :
    omeroSteps img =
      { colormap := some (chs.map (fun ch => specColormap modelJ ((specColorOf ch).getD []))),
        contrast_limits := some (chs.map (fun ch => (specWindowOf ch).getD (.null, .null))),
        name := some (chs.map (fun ch => (specLabelOf ch).getD .null)),
        visible := some (chs.map (fun ch => (specActiveOf ch).getD .null)) } ∧
    (chs.map (fun ch => specColormap modelJ ((specColorOf ch).getD []))).length = chs.length ∧
    (chs.map (fun ch => (specWindowOf ch).getD (.null, .null))).length = chs.length ∧
    (chs.map (fun ch => (specLabelOf ch).getD .null)).length = chs.length ∧
    (chs.map (fun ch => (specActiveOf ch).getD .null)).length = chs.length := by
  have hchan : omeroChannels img = .ok chs := by
    rw [omeroChannels, hch]
    rfl
  have hmodel : ∀ ch rgb, specColorOf ch = some rgb →
      channelColormap img ch = .ok (specColormap modelJ rgb) := by
    intro ch rgb hcol
    rcases hrdefs : img.subscriptStr "rdefs" with e | rdefs
    · rw [hrdefs] at hrd
      exact absurd hrd (by simp [Except.bind])
    · rw [hrdefs] at hrd
      simp only [Except.bind] at hrd
      have hcolor : parseChannelColor ch = .ok rgb := by
        unfold specColorOf at hcol
        split at hcol
        case h_1 s heq => exact parseChannelColor_eq_spec heq hcol
        case h_2 => exact absurd hcol (by simp)
      rw [channelColormap]
      simp only [hcolor, except_bind_ok, hrdefs, hrd, except_pure_eq_ok, specColormap]
  have m1 : chs.mapM (channelColormap img) =
      .ok (chs.map (fun ch => specColormap modelJ ((specColorOf ch).getD []))) := by
    refine mapM_ok_of_forall _ _ chs (fun ch hmem => ?_)
    obtain ⟨hcol, -, -, -⟩ := hwf ch hmem
    obtain ⟨rgb, hrgb⟩ := Option.isSome_iff_exists.mp hcol
    rw [hrgb, Option.getD_some]
    exact hmodel ch rgb hrgb
  have m2 : chs.mapM channelWindow =
      .ok (chs.map (fun ch => (specWindowOf ch).getD (.null, .null))) := by
    refine mapM_ok_of_forall _ _ chs (fun ch hmem => ?_)
    obtain ⟨-, hwin, -, -⟩ := hwf ch hmem
    obtain ⟨p, hp⟩ := Option.isSome_iff_exists.mp hwin
    rw [hp, Option.getD_some]
    exact specWindowOf_channelWindow hp
  have m3 : chs.mapM (fun ch => ch.subscriptStr "label") =
      .ok (chs.map (fun ch => (specLabelOf ch).getD .null)) := by
    refine mapM_ok_of_forall _ _ chs (fun ch hmem => ?_)
    obtain ⟨-, -, hlab, -⟩ := hwf ch hmem
    obtain ⟨v, hv⟩ := Option.isSome_iff_exists.mp hlab
    rw [hv, Option.getD_some]
    exact specLabelOf_subscript hv
  have m4 : chs.mapM (fun ch => ch.subscriptStr "active") =
      .ok (chs.map (fun ch => (specActiveOf ch).getD .null)) := by
    refine mapM_ok_of_forall _ _ chs (fun ch hmem => ?_)
    obtain ⟨-, -, -, hact⟩ := hwf ch hmem
    obtain ⟨v, hv⟩ := Option.isSome_iff_exists.mp hact
    rw [hv, Option.getD_some]
    exact specActiveOf_subscript hv
  refine ⟨?_, by simp, by simp, by simp, by simp⟩
  unfold omeroSteps
  rw [hchan]
  simp only [except_bind_ok, m1, m2, m3, m4]

theorem load_omero_metadata_translates_channels_witness :
    omeroSteps wOmero3 =
      { colormap := some [⟨[[0, 0, 0],
          [((255 : Nat) : Rat) / 255, ((0 : Nat) : Rat) / 255, ((0 : Nat) : Rat) / 255]]⟩],
        contrast_limits := some [(.num 0, .num 255)],
        name := some [.str "R"],
        visible := some [.bool true] } := by
  have h := (load_omero_metadata_translates_channels wOmero3
      [.obj [("color", .str "FF0000"),
             ("window", .obj [("start", .num 0), ("end", .num 255)]),
             ("label", .str "R"), ("active", .bool true)]]
      (.str "color") rfl rfl ?_).1
  · rw [h]
    rfl
  · intro ch hmem
    simp only [List.mem_singleton] at hmem
    subst hmem
    exact ⟨rfl, rfl, rfl, rfl⟩

/-! ### Claim C4 -/

/-- Case analysis of the translator's sequential dict assignments: the
assigned keys always form an initial segment of (colormap,
contrast_limits, name, visible). -/
theorem omeroSteps_cases (img : Json) :
    omeroSteps img = {} ∨
    (∃ cms, omeroSteps img = { colormap := some cms }) ∨
    (∃ cms ws, omeroSteps img = { colormap := some cms, contrast_limits := some ws }) ∨
    (∃ cms ws ls, omeroSteps img =
      { colormap := some cms, contrast_limits := some ws, name := some ls }) ∨
    (∃ cms ws ls vs, omeroSteps img =
      { colormap := some cms, contrast_limits := some ws, name := some ls,
        visible := some vs }) := by
  unfold omeroSteps
  set s1 := (omeroChannels img >>= fun chs => chs.mapM (channelColormap img)) with hs1
  set s2 := (omeroChannels img >>= fun chs => chs.mapM channelWindow) with hs2
  set s3 := (omeroChannels img >>= fun chs =>
    chs.mapM (fun ch => ch.subscriptStr "label")) with hs3
  set s4 := (omeroChannels img >>= fun chs =>
    chs.mapM (fun ch => ch.subscriptStr "active")) with hs4
  clear_value s1 s2 s3 s4
  rcases s1 with e | cms
  · exact Or.inl rfl
  · rcases s2 with e | ws
    · exact Or.inr (Or.inl ⟨cms, rfl⟩)
    · rcases s3 with e | ls
      · exact Or.inr (Or.inr (Or.inl ⟨cms, ws, rfl⟩))
      · rcases s4 with e | vs
        · exact Or.inr (Or.inr (Or.inr (Or.inl ⟨cms, ws, ls, rfl⟩)))
        · exact Or.inr (Or.inr (Or.inr (Or.inr ⟨cms, ws, ls, vs, rfl⟩)))

/-- C4 counterexample: a channel descriptor set whose single channel has
a parsable color but no window.  The derivation fails (at the
contrast-limits step), no exception escapes, but the resulting metadata
object is NOT empty: the colormap key survives. -/
theorem load_omero_metadata_partial_on_failure :
    BaseZarr.load_omero_metadata (some wOmero4) = .ok wMeta4 ∧
    wMeta4.contrast_limits = none ∧ wMeta4 ≠ ({} : OmeroMetadata) := by
  refine ⟨rfl, rfl, fun hc => ?_⟩
  have := congrArg OmeroMetadata.colormap hc
  exact Option.noConfusion this

/-- C4 amended: any failure while deriving the channel display metadata
is swallowed (the translator returns normally whenever the descriptor
attribute is assigned, even as the empty mapping for an absent
document), and the result holds exactly the keys assigned before the
first failing step — an initial segment of (colormap, contrast_limits,
name, visible), empty in particular for an absent descriptor — rather
than always the empty object. -/
theorem load_omero_metadata_swallows_failures (img : Json) :
    BaseZarr.load_omero_metadata (some img) = .ok (omeroSteps img) ∧
    ((omeroSteps img).contrast_limits.isSome → (omeroSteps img).colormap.isSome) ∧
    ((omeroSteps img).name.isSome → (omeroSteps img).contrast_limits.isSome) ∧
    ((omeroSteps img).visible.isSome → (omeroSteps img).name.isSome) ∧
    (img = .obj [] → omeroSteps img = {}) := by
  refine ⟨rfl, ?_, ?_, ?_, fun h => h ▸ omeroSteps_empty_obj⟩ <;>
    rcases omeroSteps_cases img with h | ⟨c, h⟩ | ⟨c, w, h⟩ | ⟨c, w, l, h⟩ | ⟨c, w, l, v, h⟩ <;>
      simp [h]

theorem load_omero_metadata_swallows_failures_witness :
    BaseZarr.load_omero_metadata (some (.obj [])) = .ok (omeroSteps (.obj [])) ∧
    (omeroSteps wOmero3).colormap.isSome = true ∧
    omeroSteps (.obj []) = {} :=
  ⟨(load_omero_metadata_swallows_failures (.obj [])).1,
   (load_omero_metadata_swallows_failures wOmero3).2.1 (by rfl),
   (load_omero_metadata_swallows_failures (.obj [])).2.2.2.2 rfl⟩

/-! ### Claim C9 -/

/-- C9: the reader function is deterministic over an unchanged store:
two calls on the same constructed state with the same path argument
yield the same result, hence identical resolution-path lists and
identical display metadata. -/
theorem reader_function_idempotent (st : BaseZarrState) (p : PathLike)
    (r1 r2 : Except String (List (List String × NapariMeta)))
    (h1 : BaseZarr.reader_function st p = r1)
    (h2 : BaseZarr.reader_function st p = r2) : r1 = r2 :=
  h1.symm.trans h2

theorem reader_function_idempotent_witness :
    BaseZarr.reader_function wSt1 (.str "/data") =
      .ok [(["/data/0"], ⟨1, {}⟩)] :=
  reader_function_idempotent wSt1 (.str "/data") _ _ rfl rfl

/-! ### Claim C10 -/

/-- C10: the reader function's result is independent of its path
argument: for any two valid arguments (a string or a non-empty list of
strings) it returns the same result, which depends only on the state
bound at construction time. -/
theorem reader_function_path_independent (st : BaseZarrState) (p q : PathLike)
    (hp : p.valid) (hq : q.valid) :
    BaseZarr.reader_function st p = BaseZarr.reader_function st q := by
  obtain ⟨sp, hsp⟩ := firstPath_of_valid p hp
  obtain ⟨sq, hsq⟩ := firstPath_of_valid q hq
  simp [BaseZarr.reader_function, hsp, hsq]

theorem reader_function_path_independent_witness :
    BaseZarr.reader_function wSt1 (.str "/data") =
      BaseZarr.reader_function wSt1 (.list ["/other", "/more"]) :=
  reader_function_path_independent wSt1 (.str "/data") (.list ["/other", "/more"])
    trivial (by simp [PathLike.valid])

end OmeZarr
